import Mathlib

/-!
Verification of the notcurses Rust wrapper (`libnotcurses-sys`) against its
natural-language specification.

The repository under verification is a thin Rust wrapper over the notcurses C
core.  Wrapper functions present in the Rust sources
(`src/notcurses/methods.rs`, `src/direct/reimplemented.rs`) are embedded
directly; the C core they call (compositor, rasterizer, input multiplexer,
context lifecycle) is not part of the visible sources, so those parts are
modelled from the specification, with each such definition marked
`Modelled from the spec:` in its doc comment.
-/

/-! ## Signal sets (`NcSignalSet`, from `src/rust/src/signal.rs` interface as
used by `src/rust/src/direct/reimplemented.rs`) -/

/-- The signals the model tracks.  `winch` is the terminal-resize signal and
`sigint` the interrupt signal; the remaining constructors stand for arbitrary
other signals a caller might care about. -/
inductive NcSignal
  | winch
  | sigint
  | sigquit
  | sigtstp
  | sigterm
  | sigusr1
deriving DecidableEq, Repr

/-- A signal mask: which signals are blocked.  Mirrors the `sigset_t`-backed
`NcSignalSet` of the wrapper, restricted to the tracked signals. -/
structure NcSignalSet where
  winch : Bool
  sigint : Bool
  sigquit : Bool
  sigtstp : Bool
  sigterm : Bool
  sigusr1 : Bool
deriving DecidableEq, Repr

/-- Mirrors `NcSignalSet::new()`: a freshly created, cleared signal set. -/
def NcSignalSet.newSet : NcSignalSet :=
  { winch := false, sigint := false, sigquit := false, sigtstp := false,
    sigterm := false, sigusr1 := false }

/-- Mirrors `NcSignalSet::fillset()` (POSIX `sigfillset`): every signal is in
the set.  The receiver is ignored because the C function overwrites it. -/
def NcSignalSet.fillset (_m : NcSignalSet) : NcSignalSet :=
  { winch := true, sigint := true, sigquit := true, sigtstp := true,
    sigterm := true, sigusr1 := true }

/-- Mirrors `NcSignalSet::emptyset()` (POSIX `sigemptyset`): no signal is in
the set.  The receiver is ignored because the C function overwrites it. -/
def NcSignalSet.emptyset (_m : NcSignalSet) : NcSignalSet :=
  { winch := false, sigint := false, sigquit := false, sigtstp := false,
    sigterm := false, sigusr1 := false }

/-- Whether mask `m` blocks signal `s`. -/
def NcSignalSet.blocks (m : NcSignalSet) : NcSignal → Bool
  | NcSignal.winch => m.winch
  | NcSignal.sigint => m.sigint
  | NcSignal.sigquit => m.sigquit
  | NcSignal.sigtstp => m.sigtstp
  | NcSignal.sigterm => m.sigterm
  | NcSignal.sigusr1 => m.sigusr1

/-- Modelled from the spec: the C core installs the caller-supplied mask
"less several we handle internally" — the small fixed set the system must
always observe (terminal resize `winch`, interrupt `sigint`).  The installed
mask therefore never blocks those two signals, whatever the caller passed. -/
def installedMask (m : NcSignalSet) : NcSignalSet :=
  { winch := false, sigint := false, sigquit := m.sigquit,
    sigtstp := m.sigtstp, sigterm := m.sigterm, sigusr1 := m.sigusr1 }

/-- The mask built by `ncdirect_getc_nblock` in
`src/rust/src/direct/reimplemented.rs`: `NcSignalSet::new()` then
`fillset()`. -/
def ncdirect_getc_nblock_sigmask : NcSignalSet :=
  NcSignalSet.fillset NcSignalSet.newSet

/-- The mask built by `ncdirect_getc_nblocking` in
`src/rust/src/direct/reimplemented.rs`: `NcSignalSet::new()` then
`emptyset()`. -/
def ncdirect_getc_nblocking_sigmask : NcSignalSet :=
  NcSignalSet.emptyset NcSignalSet.newSet

/-- The two wait helpers that are invoked without a caller-supplied signal
mask (they construct the mask themselves). -/
inductive NoMaskWaitOp
  | nblock
  | nblocking
deriving DecidableEq, Repr

/-- The mask each helper passes to the core wait, read off the source of
`ncdirect_getc_nblock` and `ncdirect_getc_nblocking`. -/
def defaultMaskOf : NoMaskWaitOp → NcSignalSet
  | NoMaskWaitOp.nblock => ncdirect_getc_nblock_sigmask
  | NoMaskWaitOp.nblocking => ncdirect_getc_nblocking_sigmask

/-! ## Input multiplexer (C core, modelled from the spec §4.4) -/

/-- The input event source: a queue of pending event ids plus a flag for
unrecoverable source failure (e.g. device closed). -/
structure InputSrc where
  queue : List Nat
  closed : Bool
deriving DecidableEq, Repr

/-- Outcome of one wait on the input multiplexer. -/
inductive MuxResult
  | event (id : Nat)
  | noEvent
  | interrupted (s : NcSignal)
  | fail
deriving DecidableEq, Repr

/-- Modelled from the spec: §4.4 wait disciplines of the input multiplexer.
`time = none` is the indefinite block, `time = some t` the bounded wait (with
`t = 0` the non-blocking poll).  `sig` is the signal, if any, delivered while
waiting; it interrupts the wait exactly when the installed mask (the caller
mask less the internally observed set) does not block it.  The result pairs
the outcome with the number of time units spent waiting; `none` means the
wait is still suspended (indefinite block, no event, no unmasked signal). -/
def multiplexerWait (src : InputSrc) (time : Option Nat) (mask : NcSignalSet)
    (sig : Option NcSignal) : Option (MuxResult × Nat) :=
  if src.closed then some (MuxResult.fail, 0)
  else
    match src.queue with
    | e :: _ => some (MuxResult.event e, 0)
    | [] =>
      match sig with
      | some s =>
        if (installedMask mask).blocks s then
          match time with
          | some t => some (MuxResult.noEvent, t)
          | none => none
        else
          some (MuxResult.interrupted s, 0)
      | none =>
        match time with
        | some t => some (MuxResult.noEvent, t)
        | none => none

/-- Modelled from the spec: the id the core reports for a signal-injected
event (spec §4.4 "injected-signal (which signal)").  Any family of nonzero
ids below `2^31` is adequate; the wrapper only distinguishes the error
sentinel. -/
def sigEventId : NcSignal → Nat
  | NcSignal.winch => 1115121
  | NcSignal.sigint => 1115122
  | NcSignal.sigquit => 1115123
  | NcSignal.sigtstp => 1115124
  | NcSignal.sigterm => 1115125
  | NcSignal.sigusr1 => 1115126

/-- Modelled from the spec: encoding of a wait outcome as the `char32_t`
(`u32`) returned by the C `notcurses_getc`: an event yields its id, "no
event" yields `0`, a signal interruption yields the injected-signal event
id, and unrecoverable failure yields `(u32)-1`. -/
def muxEncode : MuxResult → Nat
  | MuxResult.event e => e % 4294967296
  | MuxResult.noEvent => 0
  | MuxResult.interrupted s => sigEventId s
  | MuxResult.fail => 4294967295

/-- Modelled from the spec: the C `notcurses_getc` / `ncdirect_getc` core —
one multiplexer wait, with the outcome encoded as a `u32` and paired with
the units waited; `none` when the wait is still suspended. -/
def notcurses_getc_u32 (src : InputSrc) (time : Option Nat)
    (mask : NcSignalSet) (sig : Option NcSignal) : Option (Nat × Nat) :=
  (multiplexerWait src time mask sig).map (fun p => (muxEncode p.1, p.2))

/-- The error sentinel `NCRESULT_ERR` of the wrapper bindings (value `-1`). -/
def NCRESULT_ERR : Int := -1

/-- Reinterpretation of a `u32` value as an `i32`, as performed by
`c as u32 as i32` in `Notcurses::getc`. -/
def u32AsI32 (n : Nat) : Int :=
  if n % 4294967296 < 2147483648 then ((n % 4294967296 : Nat) : Int)
  else ((n % 4294967296 : Nat) : Int) - 4294967296

/-- The error payload of the wrapper's `NcError` (field `int` of the Rust
struct). -/
structure NcError where
  int : Int
deriving DecidableEq, Repr

/-- Embeds `Notcurses::getc` from `src/rust/src/notcurses/methods.rs`
(lines 292-324): optional timeout, optional signal mask (a null mask blocks
nothing extra), optional input detail; the `u32` result of the C core is
reinterpreted as `i32` and compared against `NCRESULT_ERR`, every other
value being returned as a successful event id (the wrapper's `char`).  The
second component is the units waited; `none` means the call has not yet
returned. -/
def Notcurses.getc (src : InputSrc) (time : Option Nat)
    (mask : Option NcSignalSet) (sig : Option NcSignal) :
    Option ((Except NcError Nat) × Nat) :=
  match notcurses_getc_u32 src time (mask.getD NcSignalSet.newSet) sig with
  | some (c, w) =>
    if u32AsI32 c = NCRESULT_ERR then some (Except.error { int := NCRESULT_ERR }, w)
    else some (Except.ok c, w)
  | none => none

/-- Embeds `ncdirect_getc_nblock` from
`src/rust/src/direct/reimplemented.rs` (lines 13-21): a filled signal mask
and a zero timeout (`NcTime::new()` is the zeroed timespec), passed to the
core wait; the raw `u32` is returned without an error check. -/
def ncdirect_getc_nblock (src : InputSrc) (sig : Option NcSignal) :
    Option (Nat × Nat) :=
  notcurses_getc_u32 src (some 0) ncdirect_getc_nblock_sigmask sig

/-- Embeds `ncdirect_getc_nblocking` from
`src/rust/src/direct/reimplemented.rs` (lines 27-34): an emptied signal mask
and a null timeout (block at length), passed to the core wait. -/
def ncdirect_getc_nblocking (src : InputSrc) (sig : Option NcSignal) :
    Option (Nat × Nat) :=
  notcurses_getc_u32 src none ncdirect_getc_nblocking_sigmask sig

/-! ## Direct-mode color setters (`src/rust/src/direct/reimplemented.rs`) -/

/-- The observable state of a direct-mode context: the last foreground and
background values handed to the core color setters. -/
structure NcDirectState where
  fg : Nat
  bg : Nat
deriving DecidableEq, Repr

/-- Modelled from the spec: the core `ncdirect_set_fg_rgb` — the immediate
foreground color set of the direct terminal-command layer (spec §6); it
records the packed `u32` value it was handed. -/
def ncdirect_set_fg_rgb (ncd : NcDirectState) (rgb : Nat) : NcDirectState :=
  { ncd with fg := rgb % 4294967296 }

/-- Modelled from the spec: the core `ncdirect_set_bg_rgb` — the immediate
background color set of the direct terminal-command layer (spec §6); it
records the packed `u32` value it was handed. -/
def ncdirect_set_bg_rgb (ncd : NcDirectState) (rgb : Nat) : NcDirectState :=
  { ncd with bg := rgb % 4294967296 }

/-- Embeds `ncdirect_set_fg_rgb8` from
`src/rust/src/direct/reimplemented.rs` (lines 39-48): packs the three 8-bit
components as `(red << 16) | (green << 8) | blue` and passes the result to
the core foreground setter. -/
def ncdirect_set_fg_rgb8 (ncd : NcDirectState) (red green blue : Nat) :
    NcDirectState :=
  let rgb := red <<< 16 ||| green <<< 8 ||| blue
  ncdirect_set_fg_rgb ncd rgb

/-- Embeds `ncdirect_set_bg_rgb8` from
`src/rust/src/direct/reimplemented.rs` (lines 53-62): packs the three 8-bit
components as `(red << 16) | (green << 8) | blue` and passes the result to
the core background setter. -/
def ncdirect_set_bg_rgb8 (ncd : NcDirectState) (red green blue : Nat) :
    NcDirectState :=
  let rgb := red <<< 16 ||| green <<< 8 ||| blue
  ncdirect_set_bg_rgb ncd rgb

/-! ## Cells and planes (C core data model, modelled from the spec §3) -/

/-- Modelled from the spec: a Cell — one terminal grapheme position with a
style attribute set, a foreground/background color pair, and the "blend"
style modifier (§3, §4.1).  The grapheme is abstracted to its codepoint. -/
structure Cell where
  glyph : Nat
  styleBits : Nat
  fg : Nat
  bg : Nat
  blend : Bool
deriving DecidableEq, Repr

/-- Modelled from the spec: the designated "transparent" marker cell that a
plane uses for positions it does not paint (§4.1). -/
def transparentCell : Cell :=
  { glyph := 0, styleBits := 0, fg := 0, bg := 0, blend := false }

/-- Whether a cell is the designated transparent marker. -/
def Cell.isTransparent (x : Cell) : Bool :=
  decide (x = transparentCell)

/-- Modelled from the spec: the "empty" cell used when no plane covers a
target position — blank (space) with default colors (§4.1). -/
def emptyCell : Cell :=
  { glyph := 32, styleBits := 0, fg := 7, bg := 0, blend := false }

/-- Modelled from the spec: a Plane — a positioned, sized cell buffer with a
z-order slot inside a pile (§3).  The standard-plane flag marks the
always-present base plane. -/
structure Plane where
  id : Nat
  isStd : Bool
  originR : Nat
  originC : Nat
  rows : Nat
  cols : Nat
  buffer : List (List Cell)
deriving DecidableEq, Repr

/-- Whether plane `p`'s bounds cover the absolute position `(r, c)`. -/
def Plane.covers (p : Plane) (r c : Nat) : Bool :=
  decide (p.originR ≤ r) && decide (r < p.originR + p.rows) &&
    decide (p.originC ≤ c) && decide (c < p.originC + p.cols)

/-- The cell plane `p` holds at absolute position `(r, c)` (positions
outside the stored buffer read as the transparent marker). -/
def Plane.cellAt (p : Plane) (r c : Nat) : Cell :=
  (p.buffer.getD (r - p.originR) []).getD (c - p.originC) transparentCell

/-- Modelled from the spec: the alpha formula for "blend"-styled cells is
left open by the spec (§9, open question); a simple average is chosen here.
No theorem below depends on the choice. -/
def mixColor (a b : Nat) : Nat :=
  (a + b) / 2

/-- Modelled from the spec: combining a blend-styled top cell with the
previously resolved (lower-z) cell (§4.1). -/
def blendCells (top below : Cell) : Cell :=
  { top with fg := mixColor top.fg below.fg, bg := mixColor top.bg below.bg }

/-- Modelled from the spec: §4.1 per-cell compositing.  The plane list is
ordered topmost first; the first plane whose bounds cover `(r, c)` and whose
own cell there is not the transparent marker supplies the visible cell
(combined with the resolution below it when the cell is blend-styled); if no
plane covers the position, the target cell is empty. -/
def resolveCell : List Plane → Nat → Nat → Cell
  | [], _, _ => emptyCell
  | p :: rest, r, c =>
    if p.covers r c && !(p.cellAt r c).isTransparent then
      if (p.cellAt r c).blend then blendCells (p.cellAt r c) (resolveCell rest r c)
      else p.cellAt r c
    else resolveCell rest r c

/-- Modelled from the spec: the Compositor — a full frame buffer of the
pile's coordinate-space extent, resolved cell by cell (§4.1). -/
def compositeFrame (planes : List Plane) (rows cols : Nat) : List (List Cell) :=
  (List.range rows).map (fun r => (List.range cols).map (fun c => resolveCell planes r c))

/-! ## Rasterizer (C core, modelled from the spec §4.2) -/

/-- Modelled from the spec: the emitted terminal operations — cursor moves,
style/color switches, and grapheme content (§4.2).  Byte counts are measured
in operations. -/
inductive RasterOp
  | moveTo (r c : Nat)
  | setStyle (st fg bg : Nat)
  | glyph (g : Nat)
deriving DecidableEq, Repr

/-- Rasterizer working state: the believed cursor position and the currently
active style/color, if any. -/
structure RastCursor where
  r : Nat
  c : Nat
  active : Option (Nat × Nat × Nat)
deriving DecidableEq, Repr

/-- The style/color key of a cell, as tracked by the rasterizer. -/
def cellStyleKey (x : Cell) : Nat × Nat × Nat :=
  (x.styleBits, x.fg, x.bg)

/-- The snapshot cell at `(r, c)` (missing positions read as empty). -/
def snapAt (snap : List (List Cell)) (r c : Nat) : Cell :=
  (snap.getD r []).getD c emptyCell

/-- Modelled from the spec: §4.2 per-cell emission.  A cell equal to the
snapshot emits nothing; a differing cell emits a cursor move only when the
believed position is not already at the cell, a style switch only when the
active style/color differs, then the grapheme. -/
def rasterizeCell (st : RastCursor) (r c : Nat) (f sn : Cell) :
    RastCursor × List RasterOp :=
  if f = sn then (st, [])
  else
    let moveOps := if st.r = r ∧ st.c = c then [] else [RasterOp.moveTo r c]
    let styleOps :=
      if st.active = some (cellStyleKey f) then []
      else [RasterOp.setStyle f.styleBits f.fg f.bg]
    ({ r := r, c := c + 1, active := some (cellStyleKey f) },
      moveOps ++ styleOps ++ [RasterOp.glyph f.glyph])

/-- One row-major pass over the indexed frame cells, threading the
rasterizer state. -/
def rasterizeCells (snap : List (List Cell)) :
    RastCursor → List (Nat × Nat × Cell) → List RasterOp
  | _, [] => []
  | st, (r, c, f) :: rest =>
    let p := rasterizeCell st r c f (snapAt snap r c)
    p.2 ++ rasterizeCells snap p.1 rest

/-- The frame cells listed row-major with their coordinates. -/
def frameIndexed (frame : List (List Cell)) : List (Nat × Nat × Cell) :=
  (frame.enum.map (fun rr => rr.2.enum.map (fun cc => (rr.1, cc.1, cc.2)))).flatten

/-- Modelled from the spec: the Rasterizer — a row-major diff of the new
frame against the retained last-physical-state snapshot, emitting only the
operations needed for the differing cells (§4.2). -/
def rasterize (frame snap : List (List Cell)) : List RasterOp :=
  rasterizeCells snap { r := 0, c := 0, active := none } (frameIndexed frame)

/-! ## Context lifecycle and render pipeline (C core per spec §4.2, §4.5;
wrapper methods from `src/rust/src/notcurses/methods.rs`) -/

/-- Modelled from the spec: context lifecycle states (§4.5); a constructed
context is Active and `stop` moves it to the terminal Stopped state. -/
inductive CtxState
  | active
  | stopped
deriving DecidableEq, Repr

/-- Modelled from the spec: the terminal-mode settings `stop` restores —
cursor visibility, alternate screen, line-discipline signals (§4.5). -/
structure TermMode where
  cursorVisible : Bool
  altScreen : Bool
  lineSigs : Bool
deriving DecidableEq, Repr

/-- Modelled from the spec: error kinds of §7. -/
inductive NcErrorKind
  | geometry
  | writeout
  | inputFail
  | lifecycle
  | capability
deriving DecidableEq, Repr

/-- Modelled from the spec: the state behind a `Notcurses` context — the
lifecycle state, current and prior terminal modes, the standard pile's
planes (topmost first) and extent, the rasterizer's retained
last-physical-state snapshot, and whether the writeout sink rejects bytes
(e.g. closed file descriptor). -/
structure NcCtx where
  lifecycle : CtxState
  termMode : TermMode
  priorMode : TermMode
  planes : List Plane
  rows : Nat
  cols : Nat
  snapshot : List (List Cell)
  sinkClosed : Bool
deriving DecidableEq, Repr

/-- Modelled from the spec: one render cycle of the C core — composite the
pile, rasterize against the retained snapshot, hand the bytes to the
writeout sink.  On success the snapshot is replaced with the new frame and
the number of emitted operations is reported; if the sink rejects the bytes
the render fails with `writeout` and the snapshot is left unchanged (§4.2);
on a stopped context it fails with `lifecycle` (§4.5). -/
def renderCore (s : NcCtx) : Except NcErrorKind (Nat × NcCtx) :=
  if s.lifecycle = CtxState.stopped then Except.error NcErrorKind.lifecycle
  else
    let frame := compositeFrame s.planes s.rows s.cols
    let ops := rasterize frame s.snapshot
    if s.sinkClosed then Except.error NcErrorKind.writeout
    else Except.ok (ops.length, { s with snapshot := frame })

/-- Modelled from the spec: the C `notcurses_render`, which reports the
outcome of the render cycle as an `NcIntResult` (`0` on success,
`NCRESULT_ERR` on failure), leaving the state untouched on failure. -/
def notcurses_render_int (s : NcCtx) : Int × NcCtx :=
  match renderCore s with
  | Except.ok p => (0, p.2)
  | Except.error _ => (NCRESULT_ERR, s)

/-- Modelled from the spec: the wrapper's `error!` macro (from the missing
`src/rust/src/macros.rs`), as documented in `lib.rs`: a non-negative
`NcIntResult` becomes `Ok(())`, a negative one becomes `Err(NcError)`. -/
def errCheck (res : Int) : Except NcError Unit :=
  if 0 ≤ res then Except.ok () else Except.error { int := res }

/-- Embeds `Notcurses::render` from `src/rust/src/notcurses/methods.rs`
(lines 447-452): `error![unsafe { crate::notcurses_render(self) }]` — the
core result code is mapped through `error!`, so the method returns
`NcResult<()>`. -/
def Notcurses.render (s : NcCtx) : (Except NcError Unit) × NcCtx :=
  let p := notcurses_render_int s
  (errCheck p.1, p.2)

/-- The bytes-written count the core computed for a render of `s`, when the
render succeeds. -/
def renderBytes (s : NcCtx) : Option Nat :=
  match renderCore s with
  | Except.ok p => some p.1
  | Except.error _ => none

/-- Modelled from the spec: the C `notcurses_stop` — on an Active context it
restores the prior terminal mode and moves to Stopped; any operation on a
Stopped context fails with `lifecycle` and has no side effects (§4.5). -/
def notcurses_stop_core (s : NcCtx) : Except NcErrorKind NcCtx :=
  if s.lifecycle = CtxState.stopped then Except.error NcErrorKind.lifecycle
  else Except.ok { s with lifecycle := CtxState.stopped, termMode := s.priorMode }

/-- Modelled from the spec: the `NcIntResult` form of `notcurses_stop`. -/
def notcurses_stop_int (s : NcCtx) : Int × NcCtx :=
  match notcurses_stop_core s with
  | Except.ok s2 => (0, s2)
  | Except.error _ => (NCRESULT_ERR, s)

/-- Embeds `Notcurses::stop` from `src/rust/src/notcurses/methods.rs`
(lines 556-561): `error![unsafe { crate::notcurses_stop(self) }]`. -/
def Notcurses.stop (s : NcCtx) : (Except NcError Unit) × NcCtx :=
  let p := notcurses_stop_int s
  (errCheck p.1, p.2)

/-- Modelled from the spec: the C `notcurses_render_to_buffer` — the render
cycle in deferred writeout mode (§4.3 mode b): the rasterized operations are
appended to the caller-supplied growable buffer and the buffer's new length
is reported through the length out-parameter. -/
def notcurses_render_to_buffer_core (s : NcCtx) (buf : List RasterOp) :
    Except NcErrorKind (NcCtx × List RasterOp × Nat) :=
  if s.lifecycle = CtxState.stopped then Except.error NcErrorKind.lifecycle
  else
    let frame := compositeFrame s.planes s.rows s.cols
    let newBuf := buf ++ rasterize frame s.snapshot
    Except.ok ({ s with snapshot := frame }, newBuf, newBuf.length)

/-- Embeds `Notcurses::render_to_buffer` from
`src/rust/src/notcurses/methods.rs` (lines 454-470): the buffer's length is
read into a local, the core fills the buffer and updates the length
out-parameter, and the method returns
`error![...notcurses_render_to_buffer(self, &mut buf, &mut len)]` — an
`NcResult<()>`, with the local length discarded. -/
def Notcurses.render_to_buffer (s : NcCtx) (buffer : List RasterOp) :
    (Except NcError Unit) × NcCtx × List RasterOp :=
  match notcurses_render_to_buffer_core s buffer with
  | Except.ok (s2, nb, _len) => (errCheck 0, s2, nb)
  | Except.error _ => (errCheck NCRESULT_ERR, s, buffer)

/-- The new buffer length the core reported for a deferred render of `s`
into `buf`, when it succeeds. -/
def renderToBufferLen (s : NcCtx) (buf : List RasterOp) : Option Nat :=
  match notcurses_render_to_buffer_core s buf with
  | Except.ok p => some p.2.2
  | Except.error _ => none

/-! ## Pile operations (C core, modelled from the spec §3 / §6; the wrapper
`Notcurses::drop_planes` documents the drop operation) -/

/-- Modelled from the spec: the C `notcurses_drop_planes`, per the wrapper
doc on `Notcurses::drop_planes` (`src/rust/src/notcurses/methods.rs`, lines
269-276): destroys all planes other than the standard plane. -/
def notcurses_drop_planes (ps : List Plane) : List Plane :=
  ps.filter (fun q => q.isStd)

/-- Embeds `Notcurses::drop_planes` from
`src/rust/src/notcurses/methods.rs` (lines 269-276), which delegates to the
core drop. -/
def Notcurses.drop_planes (s : NcCtx) : NcCtx :=
  { s with planes := notcurses_drop_planes s.planes }

/-- Modelled from the spec: the plane-set mutations a caller can perform on
a pile (§6: create, destroy, reparent to a different z-index; plus the bulk
drop of `notcurses_drop_planes`). -/
inductive PileOp
  | create (p : Plane)
  | destroy (i : Nat)
  | dropPlanes
  | raiseToTop (i : Nat)
deriving Repr

/-- Modelled from the spec: applying one pile operation to the plane list
(topmost first).  Created planes are ordinary (non-standard) planes pushed
on top; destroy removes a plane by id but the standard plane cannot be
destroyed while the pile exists (§3); the bulk drop keeps exactly the
standard plane; a z-reorder moves a plane to the top. -/
def applyPileOp (ps : List Plane) : PileOp → List Plane
  | PileOp.create p => { p with isStd := false } :: ps
  | PileOp.destroy i => ps.filter (fun q => q.isStd || decide (q.id ≠ i))
  | PileOp.dropPlanes => notcurses_drop_planes ps
  | PileOp.raiseToTop i =>
    ps.filter (fun q => decide (q.id = i)) ++ ps.filter (fun q => decide (q.id ≠ i))

/-- A blank rows×cols cell buffer. -/
def blankBuffer (rows cols : Nat) : List (List Cell) :=
  (List.range rows).map (fun _ => (List.range cols).map (fun _ => emptyCell))

/-- Modelled from the spec: the pile a fresh context starts with — exactly
the standard plane, sized to the full extent at the origin (§3, and the
wrapper doc on `Notcurses::stdplane`). -/
def initPile (rows cols : Nat) : List Plane :=
  [{ id := 0, isStd := true, originR := 0, originC := 0, rows := rows,
     cols := cols, buffer := blankBuffer rows cols }]

/-- The pile reached from a fresh context by a sequence of pile
operations. -/
def runPileOps (rows cols : Nat) (ops : List PileOp) : List Plane :=
  ops.foldl applyPileOp (initPile rows cols)

/-! ## Theorems -/

/-- Concrete input source with an empty queue and a healthy device, used as
a test vector below. -/
def srcEmptyOpen : InputSrc :=
  { queue := [], closed := false }

/-- Disjoint-field law for the bit packing: shifting left by `k` and or-ing
in a value below `2 ^ k` is ordinary addition. -/
theorem lor_shift_eq_add (a b k : Nat) (hb : b < 2 ^ k) :
    a <<< k ||| b = a * 2 ^ k + b := by
  rw [Nat.shiftLeft_eq, Nat.mul_comm a (2 ^ k)]
  exact (Nat.mul_add_lt_is_or hb a).symm

/-- The packed value computed by both 8-bit color setters, in closed
arithmetic form. -/
theorem rgb8_pack_value (x y z : Nat) (hy : y < 256) (hz : z < 256) :
    x <<< 16 ||| y <<< 8 ||| z = x * 65536 + y * 256 + z := by
  have h1 : y <<< 8 ||| z = y * 256 + z := by
    have h := lor_shift_eq_add y z 8 (by norm_num; omega)
    simpa using h
  rw [Nat.lor_assoc, h1]
  have h2 := lor_shift_eq_add x (y * 256 + z) 16 (by norm_num; omega)
  simpa [Nat.add_assoc] using h2

/-- C10: for 8-bit components, `ncdirect_set_fg_rgb8` and
`ncdirect_set_bg_rgb8` pack the components into the single value
`red * 65536 + green * 256 + blue` before passing it to the core setter; the
components are recoverable from disjoint bit fields of the packed value, the
packing is injective, and foreground and background use the identical
packing. -/
theorem rgb8_packing (ncd ncd2 : NcDirectState) (r g b r2 g2 b2 : Nat)
    (hr : r < 256) (hg : g < 256) (hb : b < 256)
    (hr2 : r2 < 256) (hg2 : g2 < 256) (hb2 : b2 < 256) :
    (ncdirect_set_fg_rgb8 ncd r g b).fg = r * 65536 + g * 256 + b
    ∧ (ncdirect_set_bg_rgb8 ncd r g b).bg = (ncdirect_set_fg_rgb8 ncd2 r g b).fg
    ∧ (ncdirect_set_fg_rgb8 ncd r g b).fg / 65536 % 256 = r
    ∧ (ncdirect_set_fg_rgb8 ncd r g b).fg / 256 % 256 = g
    ∧ (ncdirect_set_fg_rgb8 ncd r g b).fg % 256 = b
    ∧ ((ncdirect_set_fg_rgb8 ncd r g b).fg = (ncdirect_set_fg_rgb8 ncd r2 g2 b2).fg
        → r = r2 ∧ g = g2 ∧ b = b2) := by
  have key : ∀ (st : NcDirectState) (x y z : Nat), x < 256 → y < 256 → z < 256 →
      (ncdirect_set_fg_rgb8 st x y z).fg = x * 65536 + y * 256 + z := by
    intro st x y z hx hy hz
    show (x <<< 16 ||| y <<< 8 ||| z) % 4294967296 = x * 65536 + y * 256 + z
    rw [rgb8_pack_value x y z hy hz]
    exact Nat.mod_eq_of_lt (by omega)
  have keyBg : (ncdirect_set_bg_rgb8 ncd r g b).bg = r * 65536 + g * 256 + b := by
    show (r <<< 16 ||| g <<< 8 ||| b) % 4294967296 = r * 65536 + g * 256 + b
    rw [rgb8_pack_value r g b hg hb]
    exact Nat.mod_eq_of_lt (by omega)
  refine ⟨key ncd r g b hr hg hb, ?_, ?_, ?_, ?_, ?_⟩
  · rw [keyBg, key ncd2 r g b hr hg hb]
  · rw [key ncd r g b hr hg hb]; omega
  · rw [key ncd r g b hr hg hb]; omega
  · rw [key ncd r g b hr hg hb]; omega
  · intro h
    rw [key ncd r g b hr hg hb, key ncd r2 g2 b2 hr2 hg2 hb2] at h
    omega

/-- Witness for `rgb8_packing` at the concrete components (17, 34, 51). -/
theorem rgb8_packing_witness :
    (ncdirect_set_fg_rgb8 { fg := 0, bg := 0 } 17 34 51).fg = 17 * 65536 + 34 * 256 + 51 :=
  (rgb8_packing { fg := 0, bg := 0 } { fg := 9, bg := 9 } 17 34 51 17 34 51
    (by decide) (by decide) (by decide) (by decide) (by decide) (by decide)).1

/-- C3 counterexample: the claim says every wait invoked without a
caller-supplied mask installs a mask blocking all signals except the fixed
observed set.  The indefinite-blocking helper `ncdirect_getc_nblocking`
passes an emptied mask, so its installed mask blocks nothing: it differs
from the all-but-fixed mask, `sigusr1` is not blocked, and a delivered
`sigusr1` interrupts its indefinite wait. -/
theorem default_mask_cex :
    installedMask (defaultMaskOf NoMaskWaitOp.nblocking)
      ≠ { winch := false, sigint := false, sigquit := true, sigtstp := true,
          sigterm := true, sigusr1 := true }
    ∧ (installedMask (defaultMaskOf NoMaskWaitOp.nblocking)).blocks NcSignal.sigusr1 = false
    ∧ multiplexerWait srcEmptyOpen none (defaultMaskOf NoMaskWaitOp.nblocking)
        (some NcSignal.sigusr1) = some (MuxResult.interrupted NcSignal.sigusr1, 0) := by
  decide

/-- C3 amended: the non-blocking helper `ncdirect_getc_nblock` passes a
filled mask, so its installed mask blocks every signal except the fixed
observed set (resize, interrupt) and exactly those two can interrupt its
wait; the indefinite-blocking helper `ncdirect_getc_nblocking` passes an
emptied mask, so its installed mask blocks no signal at all and any signal
can interrupt its indefinite wait. -/
theorem default_masks_amended :
    installedMask (defaultMaskOf NoMaskWaitOp.nblock)
      = { winch := false, sigint := false, sigquit := true, sigtstp := true,
          sigterm := true, sigusr1 := true }
    ∧ installedMask (defaultMaskOf NoMaskWaitOp.nblocking)
      = { winch := false, sigint := false, sigquit := false, sigtstp := false,
          sigterm := false, sigusr1 := false }
    ∧ multiplexerWait srcEmptyOpen (some 5) (defaultMaskOf NoMaskWaitOp.nblock)
        (some NcSignal.winch) = some (MuxResult.interrupted NcSignal.winch, 0)
    ∧ multiplexerWait srcEmptyOpen (some 5) (defaultMaskOf NoMaskWaitOp.nblock)
        (some NcSignal.sigint) = some (MuxResult.interrupted NcSignal.sigint, 0)
    ∧ multiplexerWait srcEmptyOpen (some 5) (defaultMaskOf NoMaskWaitOp.nblock)
        (some NcSignal.sigusr1) = some (MuxResult.noEvent, 5)
    ∧ multiplexerWait srcEmptyOpen none (defaultMaskOf NoMaskWaitOp.nblocking)
        (some NcSignal.sigterm) = some (MuxResult.interrupted NcSignal.sigterm, 0) := by
  decide

/-- C2: a bounded-timeout input wait with duration 0 on an empty event
queue returns the "no event" result (id 0 as a success) having waited 0
units — it returns at once and never blocks the caller.  This holds for the
`Notcurses::getc` entry point with a zero timespec and for the
`ncdirect_getc_nblock` helper. -/
theorem getc_zero_timeout_no_event (src : InputSrc) (mask : Option NcSignalSet)
    (hc : src.closed = false) (hq : src.queue = []) :
    Notcurses.getc src (some 0) mask none = some (Except.ok 0, 0)
    ∧ ncdirect_getc_nblock src none = some (0, 0) := by
  constructor
  · simp [Notcurses.getc, notcurses_getc_u32, multiplexerWait, hc, hq, muxEncode,
      u32AsI32, NCRESULT_ERR]
  · simp [ncdirect_getc_nblock, notcurses_getc_u32, multiplexerWait, hc, hq, muxEncode]

/-- Witness for `getc_zero_timeout_no_event` at the empty open source. -/
theorem getc_zero_timeout_no_event_witness :
    Notcurses.getc srcEmptyOpen (some 0) none none = some (Except.ok 0, 0)
    ∧ ncdirect_getc_nblock srcEmptyOpen none = some (0, 0) :=
  getc_zero_timeout_no_event srcEmptyOpen none rfl rfl

/-- The encoded outcome of a completed wait on a healthy source is never
the error sentinel, provided queued event ids are valid codepoints. -/
theorem muxEncode_ne_err (src : InputSrc) (time : Option Nat)
    (mask : NcSignalSet) (sig : Option NcSignal) (r : MuxResult) (w : Nat)
    (hq : ∀ e ∈ src.queue, 0 < e ∧ e < 1114112)
    (hc : src.closed = false)
    (h : multiplexerWait src time mask sig = some (r, w)) :
    ¬ u32AsI32 (muxEncode r) = NCRESULT_ERR := by
  cases hqe : src.queue with
  | cons e rest =>
    have he := hq e (by rw [hqe]; exact List.mem_cons_self e rest)
    simp [multiplexerWait, hc, hqe] at h
    have hr : r = MuxResult.event e := h.1.symm
    subst hr
    simp only [muxEncode, u32AsI32, NCRESULT_ERR]
    have hm2 : e % 4294967296 = e := Nat.mod_eq_of_lt (by omega)
    rw [hm2, hm2]
    rw [if_pos (by omega : e < 2147483648)]
    omega
  | nil =>
    cases sig with
    | some s =>
      cases hb : (installedMask mask).blocks s with
      | true =>
        cases time with
        | some t =>
          simp [multiplexerWait, hc, hqe, hb] at h
          have hr : r = MuxResult.noEvent := h.1.symm
          subst hr
          decide
        | none =>
          simp [multiplexerWait, hc, hqe, hb] at h
      | false =>
        simp [multiplexerWait, hc, hqe, hb] at h
        have hr : r = MuxResult.interrupted s := h.1.symm
        subst hr
        cases s <;> decide
    | none =>
      cases time with
      | some t =>
        simp [multiplexerWait, hc, hqe] at h
        have hr : r = MuxResult.noEvent := h.1.symm
        subst hr
        decide
      | none =>
        simp [multiplexerWait, hc, hqe] at h

/-- C7: absence of an available input event is reported as the distinct
success value "no event" (id 0 wrapped in `Ok`), never as an error: the
wrapper's `getc` yields an error result only when the input source has
failed unrecoverably, and on a healthy source an empty queue with an
expiring bounded wait (any duration, including the non-blocking poll)
yields the successful "no event" result.  The indefinite block never
reports absence at all — it stays suspended. -/
theorem getc_absence_is_success (src : InputSrc) (time : Option Nat)
    (mask : Option NcSignalSet) (sig : Option NcSignal)
    (hq : ∀ e ∈ src.queue, 0 < e ∧ e < 1114112) :
    (∀ err w, Notcurses.getc src time mask sig = some (Except.error err, w)
      → src.closed = true)
    ∧ (src.closed = false → src.queue = [] → ∀ t,
        Notcurses.getc src (some t) mask none = some (Except.ok 0, t)) := by
  constructor
  · intro err w h
    by_contra hcl
    have hc : src.closed = false := by simpa using hcl
    cases hmw : multiplexerWait src time (mask.getD NcSignalSet.newSet) sig with
    | none =>
      simp [Notcurses.getc, notcurses_getc_u32, hmw] at h
    | some p =>
      have hne := muxEncode_ne_err src time (mask.getD NcSignalSet.newSet) sig p.1 p.2
        hq hc (by rw [hmw])
      simp only [Notcurses.getc, notcurses_getc_u32, hmw, Option.map_some'] at h
      rw [if_neg hne] at h
      simp at h
  · intro hc hqe t
    simp [Notcurses.getc, notcurses_getc_u32, multiplexerWait, hc, hqe, muxEncode,
      u32AsI32, NCRESULT_ERR]

/-- Witness for `getc_absence_is_success`: a bounded wait of 3 units on the
empty open source returns the "no event" success. -/
theorem getc_absence_is_success_witness :
    Notcurses.getc srcEmptyOpen (some 3) none none = some (Except.ok 0, 3) :=
  (getc_absence_is_success srcEmptyOpen (some 3) none none (by decide)).2 rfl rfl 3

/-- A concrete 1×1 cell used in the render test contexts. -/
def baseCell : Cell :=
  { glyph := 72, styleBits := 1, fg := 3, bg := 4, blend := false }

/-- The standard plane of the render test contexts. -/
def baseStdPlane : Plane :=
  { id := 0, isStd := true, originR := 0, originC := 0, rows := 1, cols := 1,
    buffer := [[baseCell]] }

/-- A terminal mode for the render test contexts. -/
def baseMode : TermMode :=
  { cursorVisible := true, altScreen := false, lineSigs := true }

/-- An Active 1×1 context whose snapshot already equals its composited
frame (a clean context: rendering emits nothing). -/
def baseCtx : NcCtx :=
  { lifecycle := CtxState.active, termMode := baseMode, priorMode := baseMode,
    planes := [baseStdPlane], rows := 1, cols := 1,
    snapshot := compositeFrame [baseStdPlane] 1 1, sinkClosed := false }

/-- The same context with a stale snapshot (rendering emits operations). -/
def dirtyCtx : NcCtx :=
  { baseCtx with snapshot := [[emptyCell]] }

/-- C1 counterexample: two successful renders on Active contexts whose
cores wrote different byte counts (0 and 2 operations) return the identical
result `Ok(())` — `Notcurses::render` returns `NcResult<()>`, so the result
of a successful call carries no bytes-written count. -/
theorem render_result_no_byte_count_cex :
    baseCtx.lifecycle = CtxState.active
    ∧ dirtyCtx.lifecycle = CtxState.active
    ∧ renderBytes baseCtx = some 0
    ∧ renderBytes dirtyCtx = some 2
    ∧ (Notcurses.render baseCtx).1 = Except.ok ()
    ∧ (Notcurses.render dirtyCtx).1 = Except.ok ()
    ∧ (Notcurses.render baseCtx).1 = (Notcurses.render dirtyCtx).1 :=
  ⟨rfl, rfl, rfl, rfl, rfl, rfl, rfl⟩

/-- C1 amended: a successful `render` call on an Active context returns the
unit success value `Ok(())` — the bytes-written count is computed by the
core render cycle but is not part of the entry point's result. -/
theorem render_success_returns_unit (s : NcCtx)
    (ha : s.lifecycle = CtxState.active) (hs : s.sinkClosed = false) :
    (Notcurses.render s).1 = Except.ok ()
    ∧ renderBytes s
      = some (rasterize (compositeFrame s.planes s.rows s.cols) s.snapshot).length := by
  have hns : ¬ s.lifecycle = CtxState.stopped := by simp [ha]
  constructor
  · simp [Notcurses.render, notcurses_render_int, renderCore, errCheck, hns, hs]
  · simp [renderBytes, renderCore, hns, hs]

/-- Witness for `render_success_returns_unit` at the clean 1×1 context. -/
theorem render_success_returns_unit_witness :
    (Notcurses.render baseCtx).1 = Except.ok ()
    ∧ renderBytes baseCtx
      = some (rasterize (compositeFrame baseCtx.planes baseCtx.rows baseCtx.cols)
          baseCtx.snapshot).length :=
  render_success_returns_unit baseCtx rfl rfl

/-- C4: when the writeout sink rejects the byte sequence, the render cycle
fails with `writeout`, the `render` entry point returns an error, and the
rasterizer's retained last-physical-state snapshot (indeed the whole
context state) is left unchanged, so a subsequent render re-diffs against
the last confirmed-written state. -/
theorem render_writeout_failure_keeps_snapshot (s : NcCtx)
    (ha : s.lifecycle = CtxState.active) (hc : s.sinkClosed = true) :
    renderCore s = Except.error NcErrorKind.writeout
    ∧ (Notcurses.render s).1 = Except.error { int := NCRESULT_ERR }
    ∧ (Notcurses.render s).2.snapshot = s.snapshot
    ∧ (Notcurses.render s).2 = s := by
  have hns : ¬ s.lifecycle = CtxState.stopped := by simp [ha]
  have hcore : renderCore s = Except.error NcErrorKind.writeout := by
    simp [renderCore, hns, hc]
  refine ⟨hcore, ?_, ?_, ?_⟩
  · simp [Notcurses.render, notcurses_render_int, errCheck, hcore, NCRESULT_ERR]
  · simp [Notcurses.render, notcurses_render_int, hcore]
  · simp [Notcurses.render, notcurses_render_int, hcore]

/-- Witness for `render_writeout_failure_keeps_snapshot` at the 1×1
context with a closed sink. -/
theorem render_writeout_failure_witness :
    renderCore { baseCtx with sinkClosed := true } = Except.error NcErrorKind.writeout
    ∧ (Notcurses.render { baseCtx with sinkClosed := true }).1
      = Except.error { int := NCRESULT_ERR }
    ∧ (Notcurses.render { baseCtx with sinkClosed := true }).2.snapshot
      = { baseCtx with sinkClosed := true }.snapshot
    ∧ (Notcurses.render { baseCtx with sinkClosed := true }).2
      = { baseCtx with sinkClosed := true } :=
  render_writeout_failure_keeps_snapshot { baseCtx with sinkClosed := true } rfl rfl

/-- C5: calling `stop` on a context already in the Stopped state fails with
`lifecycle` (surfaced as an error by the wrapper) and performs no
terminal-mode side effects — the terminal mode, and the whole state, are
unchanged by the failed call. -/
theorem stop_on_stopped_fails (s : NcCtx) (h : s.lifecycle = CtxState.stopped) :
    notcurses_stop_core s = Except.error NcErrorKind.lifecycle
    ∧ (Notcurses.stop s).1 = Except.error { int := NCRESULT_ERR }
    ∧ (Notcurses.stop s).2.termMode = s.termMode
    ∧ (Notcurses.stop s).2 = s := by
  have hcore : notcurses_stop_core s = Except.error NcErrorKind.lifecycle := by
    simp [notcurses_stop_core, h]
  refine ⟨hcore, ?_, ?_, ?_⟩
  · simp [Notcurses.stop, notcurses_stop_int, errCheck, hcore, NCRESULT_ERR]
  · simp [Notcurses.stop, notcurses_stop_int, hcore]
  · simp [Notcurses.stop, notcurses_stop_int, hcore]

/-- Witness for `stop_on_stopped_fails` at a concrete Stopped context. -/
theorem stop_on_stopped_fails_witness :
    notcurses_stop_core { baseCtx with lifecycle := CtxState.stopped }
      = Except.error NcErrorKind.lifecycle
    ∧ (Notcurses.stop { baseCtx with lifecycle := CtxState.stopped }).1
      = Except.error { int := NCRESULT_ERR }
    ∧ (Notcurses.stop { baseCtx with lifecycle := CtxState.stopped }).2.termMode
      = { baseCtx with lifecycle := CtxState.stopped }.termMode
    ∧ (Notcurses.stop { baseCtx with lifecycle := CtxState.stopped }).2
      = { baseCtx with lifecycle := CtxState.stopped } :=
  stop_on_stopped_fails { baseCtx with lifecycle := CtxState.stopped } rfl

/-- C6 counterexample: two successful deferred renders whose buffers end at
different lengths (0 and 1) return the identical result `Ok(())` — the
wrapper's `render_to_buffer` returns `NcResult<()>`, discarding the length
out-parameter, so the buffer's new length is not returned to the caller. -/
theorem render_to_buffer_no_length_cex :
    renderToBufferLen baseCtx [] = some 0
    ∧ renderToBufferLen baseCtx [RasterOp.glyph 9] = some 1
    ∧ (Notcurses.render_to_buffer baseCtx []).1 = Except.ok ()
    ∧ (Notcurses.render_to_buffer baseCtx [RasterOp.glyph 9]).1 = Except.ok ()
    ∧ (Notcurses.render_to_buffer baseCtx []).1
      = (Notcurses.render_to_buffer baseCtx [RasterOp.glyph 9]).1 :=
  ⟨rfl, rfl, rfl, rfl, rfl⟩

/-- C6 amended: in deferred writeout mode the operation appends the
rasterized operations to the caller-supplied growable buffer and the core
computes the buffer's new length, but the wrapper returns only the unit
success value (or an error), not that length. -/
theorem render_to_buffer_appends (s : NcCtx) (buf : List RasterOp)
    (ha : s.lifecycle = CtxState.active) :
    (Notcurses.render_to_buffer s buf).1 = Except.ok ()
    ∧ (Notcurses.render_to_buffer s buf).2.2
      = buf ++ rasterize (compositeFrame s.planes s.rows s.cols) s.snapshot
    ∧ renderToBufferLen s buf
      = some (buf ++ rasterize (compositeFrame s.planes s.rows s.cols) s.snapshot).length := by
  have hns : ¬ s.lifecycle = CtxState.stopped := by simp [ha]
  have hcore : notcurses_render_to_buffer_core s buf
      = Except.ok ({ s with snapshot := compositeFrame s.planes s.rows s.cols },
          buf ++ rasterize (compositeFrame s.planes s.rows s.cols) s.snapshot,
          (buf ++ rasterize (compositeFrame s.planes s.rows s.cols) s.snapshot).length) := by
    simp [notcurses_render_to_buffer_core, hns]
  refine ⟨?_, ?_, ?_⟩
  · simp [Notcurses.render_to_buffer, hcore, errCheck]
  · simp [Notcurses.render_to_buffer, hcore]
  · simp [renderToBufferLen, hcore]

/-- Witness for `render_to_buffer_appends` at the clean 1×1 context and the
empty buffer. -/
theorem render_to_buffer_appends_witness :
    (Notcurses.render_to_buffer baseCtx []).1 = Except.ok ()
    ∧ (Notcurses.render_to_buffer baseCtx []).2.2
      = [] ++ rasterize (compositeFrame baseCtx.planes baseCtx.rows baseCtx.cols)
          baseCtx.snapshot
    ∧ renderToBufferLen baseCtx []
      = some ([] ++ rasterize (compositeFrame baseCtx.planes baseCtx.rows baseCtx.cols)
          baseCtx.snapshot).length :=
  render_to_buffer_appends baseCtx [] rfl

/-- A standard plane cannot be removed by any single pile operation. -/
theorem applyPileOp_keeps_std (ps : List Plane) (op : PileOp) (p : Plane)
    (hp : p ∈ ps) (hstd : p.isStd = true) : p ∈ applyPileOp ps op := by
  cases op with
  | create q =>
    exact List.mem_cons_of_mem _ hp
  | destroy i =>
    exact List.mem_filter.mpr ⟨hp, by simp [hstd]⟩
  | dropPlanes =>
    exact List.mem_filter.mpr ⟨hp, by simp [hstd]⟩
  | raiseToTop i =>
    rcases Decidable.em (p.id = i) with h | h
    · exact List.mem_append.mpr (Or.inl (List.mem_filter.mpr ⟨hp, by simp [h]⟩))
    · exact List.mem_append.mpr (Or.inr (List.mem_filter.mpr ⟨hp, by simp [h]⟩))

/-- A pile holding a standard plane still holds one after any sequence of
pile operations. -/
theorem foldl_keeps_std (ops : List PileOp) (ps : List Plane)
    (h : ∃ p, p ∈ ps ∧ p.isStd = true) :
    ∃ p, p ∈ ops.foldl applyPileOp ps ∧ p.isStd = true := by
  induction ops generalizing ps with
  | nil => simpa using h
  | cons op rest ih =>
    rw [List.foldl_cons]
    rcases h with ⟨p, hp, hstd⟩
    exact ih (applyPileOp ps op) ⟨p, applyPileOp_keeps_std ps op p hp hstd, hstd⟩

/-- C8: every pile reachable from a fresh context by pile operations still
contains a standard plane (hence at least one plane), and no single pile
operation — including the bulk destruction of all other planes — removes a
standard plane from the pile. -/
theorem pile_std_plane_invariant (rows cols : Nat) (ops : List PileOp) :
    (∃ p, p ∈ runPileOps rows cols ops ∧ p.isStd = true)
    ∧ runPileOps rows cols ops ≠ []
    ∧ (∀ ps op p, p ∈ ps → p.isStd = true → p ∈ applyPileOp ps op) := by
  have hex : ∃ p, p ∈ runPileOps rows cols ops ∧ p.isStd = true := by
    apply foldl_keeps_std
    exact ⟨{ id := 0, isStd := true, originR := 0, originC := 0, rows := rows,
             cols := cols, buffer := blankBuffer rows cols },
           by simp [initPile], rfl⟩
  refine ⟨hex, ?_, applyPileOp_keeps_std⟩
  rcases hex with ⟨p, hp, _⟩
  intro hnil
  rw [hnil] at hp
  cases hp

/-- Witness for `pile_std_plane_invariant`: the standard plane of a 2×2
pile survives the bulk drop of all other planes. -/
theorem pile_std_plane_invariant_witness :
    { id := 0, isStd := true, originR := 0, originC := 0, rows := 2, cols := 2,
      buffer := blankBuffer 2 2 : Plane }
      ∈ applyPileOp (runPileOps 2 2 [PileOp.create baseStdPlane]) PileOp.dropPlanes :=
  (pile_std_plane_invariant 2 2 []).2.2 (runPileOps 2 2 [PileOp.create baseStdPlane])
    PileOp.dropPlanes
    { id := 0, isStd := true, originR := 0, originC := 0, rows := 2, cols := 2,
      buffer := blankBuffer 2 2 }
    (by decide) rfl

/-- The visible cell of the counterexample's lower plane. -/
def cexCellB : Cell :=
  { glyph := 66, styleBits := 0, fg := 1, bg := 2, blend := false }

/-- A 1×1 plane whose only cell is the transparent marker. -/
def cexPlaneA : Plane :=
  { id := 1, isStd := false, originR := 0, originC := 0, rows := 1, cols := 1,
    buffer := [[transparentCell]] }

/-- A 1×1 plane with a visible (non-transparent, non-blend) cell. -/
def cexPlaneB : Plane :=
  { id := 2, isStd := true, originR := 0, originC := 0, rows := 1, cols := 1,
    buffer := [[cexCellB]] }

/-- C9 counterexample: planes A above B both cover cell (0,0) and neither
cell uses blending, yet compositing resolves the cell to B's cell (A's cell
is the designated transparent marker, so the scan passes it over), not to
A's — against the claim that the resolved cell is A's and never B's. -/
theorem composite_topmost_cex :
    cexPlaneA.covers 0 0 = true
    ∧ cexPlaneB.covers 0 0 = true
    ∧ (cexPlaneA.cellAt 0 0).blend = false
    ∧ (cexPlaneB.cellAt 0 0).blend = false
    ∧ resolveCell [cexPlaneA, cexPlaneB] 0 0 = cexPlaneB.cellAt 0 0
    ∧ resolveCell [cexPlaneA, cexPlaneB] 0 0 ≠ cexPlaneA.cellAt 0 0 := by
  decide

/-- C9 amended: if plane A covers the target cell with a cell that is
neither the transparent marker nor blend-styled, and every plane above A in
the pile either does not cover the cell or is transparent there, then
compositing resolves the cell to A's cell, whatever the order of the planes
below A (in particular any plane B below A, covering or not, never supplies
the cell). -/
theorem composite_topmost_wins (front mid back : List Plane) (A B : Plane) (r c : Nat)
    (hA : A.covers r c = true)
    (hvis : (A.cellAt r c).isTransparent = false)
    (hnb : (A.cellAt r c).blend = false)
    (hfront : ∀ p ∈ front, p.covers r c = false ∨ (p.cellAt r c).isTransparent = true) :
    resolveCell (front ++ A :: (mid ++ B :: back)) r c = A.cellAt r c := by
  induction front with
  | nil =>
    simp [resolveCell, hA, hvis, hnb]
  | cons q qs ih =>
    have hq := hfront q (List.mem_cons_self q qs)
    have hrest : ∀ p ∈ qs, p.covers r c = false ∨ (p.cellAt r c).isTransparent = true :=
      fun p hp => hfront p (List.mem_cons_of_mem q hp)
    have hcond : (q.covers r c && !(q.cellAt r c).isTransparent) = false := by
      rcases hq with h | h
      · simp [h]
      · simp [h]
    rw [List.cons_append]
    simp only [resolveCell, hcond, Bool.false_eq_true, if_false]
    exact ih hrest

/-- Witness cell for the amended compositing theorem. -/
def wCellA : Cell :=
  { glyph := 65, styleBits := 2, fg := 5, bg := 6, blend := false }

/-- Witness plane for the amended compositing theorem. -/
def wPlaneA : Plane :=
  { id := 3, isStd := false, originR := 0, originC := 0, rows := 1, cols := 1,
    buffer := [[wCellA]] }

/-- Witness for `composite_topmost_wins`: a visible plane above the
counterexample's lower plane supplies the resolved cell. -/
theorem composite_topmost_wins_witness :
    resolveCell ([] ++ wPlaneA :: ([] ++ cexPlaneB :: [])) 0 0 = wPlaneA.cellAt 0 0 :=
  composite_topmost_wins [] [] [] wPlaneA cexPlaneB 0 0 (by decide) (by decide) (by decide)
    (by intro p hp; cases hp)
